import Mathlib

/-!
Verification of the identifier subsystem and ingestion pipeline of the
pokemon workspace (crates upload-pokemon-data and pokemon-api).

The embedding models:
  - the KSUID identifier (svix_ksuid crate): a 160-bit value made of a
    32-bit timestamp and a 128-bit random payload, with its fixed-length
    27-character base62 text encoding over the alphabet 0-9 A-Z a-z;
  - the sqlx Encode/Decode adapters for PokemonId in db.rs;
  - the CSV-to-table-row transform in db.rs, with the slug derivation
    (Inflector to_kebab_case) and the randomness of Ksuid::new passed in
    explicitly;
  - the lambda handler in main.rs, with the database abstracted as a
    function from slug to optional row.

Machine integers are modelled as Nat with explicit bounds where they
matter; f32 fields (never computed with, only moved) are modelled as an
opaque bit pattern.
-/

/-- The base62 alphabet used by the svix_ksuid crate for its canonical
text encoding: digits, upper-case letters, lower-case letters, in
ascending ASCII order. -/
def base62Alphabet : List Char :=
  "0123456789ABCDEFGHIJKLMNOPQRSTUVWXYZabcdefghijklmnopqrstuvwxyz".data

/-- The character of a single base62 digit. -/
def digitChar (d : Nat) : Char := base62Alphabet.getD d '0'

/-- Big-endian digits of a number in base b, at a fixed width w
(most significant digit first, zero padded). -/
def toDigitsBE (b : Nat) : Nat → Nat → List Nat
  | 0, _ => []
  | w + 1, n => n / b ^ w :: toDigitsBE b w (n % b ^ w)

/-- The number denoted by a big-endian digit list in base b. -/
def fromDigits (b : Nat) (ds : List Nat) : Nat :=
  ds.foldl (fun acc d => acc * b + d) 0

/-- Parse a character list as base62 digits; fails on a character outside
the alphabet. -/
def charsToDigits : List Char → Option (List Nat)
  | [] => some []
  | c :: cs =>
    if base62Alphabet.indexOf c < 62 then
      (charsToDigits cs).map (fun ds => base62Alphabet.indexOf c :: ds)
    else none

/-- Model of svix_ksuid Ksuid: a 32-bit seconds timestamp and a 128-bit
random payload. The fields are Nat; well-formedness is the Ksuid.wf
predicate below. -/
structure Ksuid where
  timestamp : Nat
  payload : Nat
deriving DecidableEq

/-- A Ksuid produced by Ksuid::new has a 32-bit timestamp and a 128-bit
payload. -/
def Ksuid.wf (k : Ksuid) : Prop := k.timestamp < 2 ^ 32 ∧ k.payload < 2 ^ 128

/-- The 160-bit big-endian value of a Ksuid: timestamp in the high 32
bits, payload in the low 128 bits. -/
def Ksuid.value (k : Ksuid) : Nat := k.timestamp * 2 ^ 128 + k.payload

/-- Model of Ksuid::to_base62: the fixed-length 27-character base62
rendering of the 160-bit value. -/
def Ksuid.toBase62 (k : Ksuid) : String :=
  ⟨(toDigitsBE 62 27 k.value).map digitChar⟩

/-- The raw 20-byte big-endian byte sequence of a Ksuid (the payload of
Ksuid::bytes). -/
def Ksuid.toBytes (k : Ksuid) : List Nat := toDigitsBE 256 20 k.value

/-- Decoding failures for canonical base62 text, as named by the spec. -/
inductive DecodeError
  | invalidLength
  | invalidAlphabet
deriving DecidableEq

/-- Model of Ksuid::from_base62. Modelled from the spec for the external
svix_ksuid crate: a text of the wrong fixed length fails with
invalidLength, a character outside the base62 alphabet fails with
invalidAlphabet, and a 27-character value exceeding 160 bits is likewise
rejected as a length-class failure. -/
def Ksuid.fromBase62 (s : String) : Except DecodeError Ksuid :=
  if s.data.length = 27 then
    match charsToDigits s.data with
    | none => .error .invalidAlphabet
    | some ds =>
      if fromDigits 62 ds < 2 ^ 160 then
        .ok ⟨fromDigits 62 ds / 2 ^ 128, fromDigits 62 ds % 2 ^ 128⟩
      else .error .invalidLength
  else .error .invalidLength

/-- PokemonId from db.rs: a newtype over Ksuid. -/
structure PokemonId where
  ksuid : Ksuid
deriving DecidableEq

/-- The UTF-8 byte sequence of a string of ASCII characters (every
character of the base62 alphabet is ASCII, so one byte per character). -/
def asciiBytes (s : String) : List Nat := s.data.map Char.toNat

/-- Model of std str::from_utf8 restricted to the single-byte range:
bytes at or above 0x80 are rejected. In the source such byte sequences
either fail UTF-8 validation or decode to characters outside the base62
alphabet and are then rejected by from_base62; in both models the
composite decode fails. -/
def asciiDecode (bs : List Nat) : Option String :=
  if bs.all (fun b => b < 128) then some ⟨bs.map Char.ofNat⟩ else none

/-- Failures of the sqlx Decode impl for PokemonId (boxed errors in the
source): a UTF-8 failure or a Ksuid base62 failure. -/
inductive PokemonIdDecodeError
  | utf8Error
  | ksuidError (e : DecodeError)
deriving DecidableEq

/-- Model of the sqlx Encode impl for PokemonId in db.rs: the bytes
written to the column are the bytes of the base62 TEXT of the Ksuid
(to_base62 followed by into_bytes), not the raw 20 bytes. -/
def PokemonId.encodeByRef (id : PokemonId) : List Nat :=
  asciiBytes id.ksuid.toBase62

/-- Model of the sqlx Decode impl for PokemonId in db.rs: read the
column bytes, view them as UTF-8 text, parse the text as base62. -/
def PokemonId.decode (bs : List Nat) : Except PokemonIdDecodeError PokemonId :=
  match asciiDecode bs with
  | none => .error .utf8Error
  | some s =>
    match Ksuid.fromBase62 s with
    | .error e => .error (.ksuidError e)
    | .ok k => .ok ⟨k⟩

/-- Model of the serde Serialize impl for PokemonId in db.rs: the base62
text. -/
def PokemonId.serializeStr (id : PokemonId) : String := id.ksuid.toBase62

deriving instance DecidableEq for Except

/-- An f32 value, modelled as its opaque bit pattern: the pipeline only
moves these values, it never computes with them. -/
structure F32 where
  bits : Nat
deriving DecidableEq

/-- Modelled from the spec: pokemon_csv.rs (the raw external record
type) is not under src. Its field set and order follow the destructuring
in the From impl of db.rs; following the narrowest-width invariant of
the spec, the stat fields converted with .into() in db.rs are 8-bit at
the source (hence the infallible widening there) and the fields used
directly are 16-bit. Numeric fields are Nat here; their widths are
enforced at parse time by the coercion step modelled below. -/
structure PokemonCsv where
  name : String
  pokedex_id : Nat
  abilities : List String
  typing : List String
  hp : Nat
  attack : Nat
  defense : Nat
  special_attack : Nat
  special_defense : Nat
  speed : Nat
  height : Nat
  weight : Nat
  generation : Nat
  female_rate : Option F32
  genderless : Bool
  is_legendary_or_mythical : Bool
  is_default : Bool
  forms_switchable : Bool
  base_experience : Nat
  capture_rate : Nat
  egg_groups : List String
  base_happiness : Nat
  evolves_from : Option String
  primary_color : String
  number_pokemon_with_typing : F32
  normal_attack_effectiveness : F32
  fire_attack_effectiveness : F32
  water_attack_effectiveness : F32
  electric_attack_effectiveness : F32
  grass_attack_effectiveness : F32
  ice_attack_effectiveness : F32
  fighting_attack_effectiveness : F32
  poison_attack_effectiveness : F32
  ground_attack_effectiveness : F32
  fly_attack_effectiveness : F32
  psychic_attack_effectiveness : F32
  bug_attack_effectiveness : F32
  rock_attack_effectiveness : F32
  ghost_attack_effectiveness : F32
  dragon_attack_effectiveness : F32
  dark_attack_effectiveness : F32
  steel_attack_effectiveness : F32
  fairy_attack_effectiveness : F32
deriving DecidableEq

/-- PokemonTableRow from db.rs (u16 fields as Nat, f32 fields as F32).
The commented-out fields of the source (abilities, typing, egg_groups,
evolves_from) are absent, as in the source. -/
structure PokemonTableRow where
  id : PokemonId
  name : String
  slug : String
  pokedex_id : Nat
  hp : Nat
  attack : Nat
  defense : Nat
  special_attack : Nat
  special_defense : Nat
  speed : Nat
  height : Nat
  weight : Nat
  generation : Nat
  female_rate : Option F32
  genderless : Bool
  legendary_or_mythical : Bool
  is_default : Bool
  forms_switchable : Bool
  base_experience : Nat
  capture_rate : Nat
  base_happiness : Nat
  primary_color : String
  number_pokemon_with_typing : F32
  normal_attack_effectiveness : F32
  fire_attack_effectiveness : F32
  water_attack_effectiveness : F32
  electric_attack_effectiveness : F32
  grass_attack_effectiveness : F32
  ice_attack_effectiveness : F32
  fighting_attack_effectiveness : F32
  poison_attack_effectiveness : F32
  ground_attack_effectiveness : F32
  fly_attack_effectiveness : F32
  psychic_attack_effectiveness : F32
  bug_attack_effectiveness : F32
  rock_attack_effectiveness : F32
  ghost_attack_effectiveness : F32
  dragon_attack_effectiveness : F32
  dark_attack_effectiveness : F32
  steel_attack_effectiveness : F32
  fairy_attack_effectiveness : F32
deriving DecidableEq

/-- Splits a character stream into kebab words: a run of alphanumeric
characters is a word, an upper-case letter opens a new word, and every
other character is a separator. The second argument is the reversed
current word. Models the word splitting of Inflector to_kebab_case
(external crate). -/
def kebabWords : List Char → List Char → List (List Char)
  | [], acc => if acc.isEmpty then [] else [acc.reverse]
  | c :: cs, acc =>
    if c.isAlphanum then
      if c.isUpper && !acc.isEmpty then acc.reverse :: kebabWords cs [c]
      else kebabWords cs (c :: acc)
    else
      if acc.isEmpty then kebabWords cs [] else acc.reverse :: kebabWords cs []

/-- Model of Inflector to_kebab_case (external crate), as called by the
transform in db.rs: split into words, lower-case them, join with
hyphens. -/
def toKebabCase (s : String) : String :=
  String.intercalate "-" ((kebabWords s.data []).map (fun w => String.mk (w.map Char.toLower)))


/-- Model of the From impl for PokemonTableRow in db.rs. The identifier
produced by Ksuid::new (wall clock plus randomness, both external) is
passed in explicitly as id; everything else is exactly the source: the
slug is to_kebab_case of the name, the multi-valued and lineage fields
of the record (abilities, typing, egg_groups, evolves_from) are
discarded, and the u8-to-u16 .into() conversions are value-preserving
widenings. -/
def PokemonTableRow.ofCsv (csv : PokemonCsv) (id : PokemonId) : PokemonTableRow :=
  { id := id
    name := csv.name
    slug := toKebabCase csv.name
    pokedex_id := csv.pokedex_id
    hp := csv.hp
    attack := csv.attack
    defense := csv.defense
    special_attack := csv.special_attack
    special_defense := csv.special_defense
    speed := csv.speed
    height := csv.height
    weight := csv.weight
    generation := csv.generation
    female_rate := csv.female_rate
    genderless := csv.genderless
    legendary_or_mythical := csv.is_legendary_or_mythical
    is_default := csv.is_default
    forms_switchable := csv.forms_switchable
    base_experience := csv.base_experience
    capture_rate := csv.capture_rate
    base_happiness := csv.base_happiness
    primary_color := csv.primary_color
    number_pokemon_with_typing := csv.number_pokemon_with_typing
    normal_attack_effectiveness := csv.normal_attack_effectiveness
    fire_attack_effectiveness := csv.fire_attack_effectiveness
    water_attack_effectiveness := csv.water_attack_effectiveness
    electric_attack_effectiveness := csv.electric_attack_effectiveness
    grass_attack_effectiveness := csv.grass_attack_effectiveness
    ice_attack_effectiveness := csv.ice_attack_effectiveness
    fighting_attack_effectiveness := csv.fighting_attack_effectiveness
    poison_attack_effectiveness := csv.poison_attack_effectiveness
    ground_attack_effectiveness := csv.ground_attack_effectiveness
    fly_attack_effectiveness := csv.fly_attack_effectiveness
    psychic_attack_effectiveness := csv.psychic_attack_effectiveness
    bug_attack_effectiveness := csv.bug_attack_effectiveness
    rock_attack_effectiveness := csv.rock_attack_effectiveness
    ghost_attack_effectiveness := csv.ghost_attack_effectiveness
    dragon_attack_effectiveness := csv.dragon_attack_effectiveness
    dark_attack_effectiveness := csv.dark_attack_effectiveness
    steel_attack_effectiveness := csv.steel_attack_effectiveness
    fairy_attack_effectiveness := csv.fairy_attack_effectiveness }

/-- A table row with its identifier erased, for stating that two rows
agree on every field other than the identifier. -/
def PokemonTableRow.stripId (r : PokemonTableRow) : PokemonTableRow :=
  { r with id := ⟨⟨0, 0⟩⟩ }

/-- The fatal transform error of the spec for a numeric field outside
its target range. -/
inductive CoercionError
  | outOfRange
deriving DecidableEq

/-- Modelled from the spec: the numeric-narrowing step of CSV ingestion
lives in pokemon_csv.rs, which is not under src; per the spec, narrowing
a loosely-typed numeric field to a 16-bit unsigned target fails with a
CoercionError when the value is out of range and never truncates. -/
def coerceToU16 (n : Nat) : Except CoercionError Nat :=
  if n < 2 ^ 16 then .ok n else .error .outOfRange

/-- Rust str::split on a one-character separator: the list of (possibly
empty) segments between occurrences of the separator. Splitting an
empty string yields one empty segment, as in Rust. -/
def splitChar (sep : Char) : List Char → List (List Char)
  | [] => [[]]
  | c :: cs =>
    if c = sep then [] :: splitChar sep cs
    else
      match splitChar sep cs with
      | [] => [[c]]
      | w :: ws => (c :: w) :: ws


/-- The row shape fetched by the handler query in main.rs. -/
structure PokemonHp where
  id : PokemonId
  name : String
  hp : Nat
  legendary_or_mythical : Bool
deriving DecidableEq

/-- A response body (aws_lambda_events Body::Text). -/
inductive Body
  | text (s : String)
deriving DecidableEq

/-- The fields of ApiGatewayProxyResponse the handler sets (the two
header maps, always empty in the source, are omitted). -/
structure ApiGatewayProxyResponse where
  status_code : Nat
  body : Option Body
  is_base64_encoded : Bool
deriving DecidableEq

/-- Escape a character for a JSON string literal (only the quote and
backslash escapes are needed for the names stored here). -/
def jsonEscapeChar (c : Char) : List Char :=
  if c = '"' ∨ c = '\\' then ['\\', c] else [c]

/-- A JSON string literal. -/
def jsonString (s : String) : String :=
  ⟨'"' :: (s.data.map jsonEscapeChar).flatten ++ ['"']⟩

/-- Model of serde_json to_string on a PokemonHp (derived Serialize:
fields in declaration order, the PokemonId as its base62 text). -/
def PokemonHp.toJson (r : PokemonHp) : String :=
  "\x7b\"id\":" ++ jsonString r.id.serializeStr ++ ",\"name\":" ++ jsonString r.name
    ++ ",\"hp\":" ++ toString r.hp ++ ",\"legendary_or_mythical\":"
    ++ (if r.legendary_or_mythical then "true" else "false") ++ "\x7d"

/-- The error body serialized by the handler for an empty slug. -/
def emptyPokemonErrorBody : String := "\x7b\"error\":\"searched for empty pokemon\"\x7d"

/-- The error side of the handler result. The only fallible call on the
lookup path is the fetch_one query; an absent row surfaces as the sqlx
RowNotFound error, any other database failure as queryFailure. -/
inductive HandlerError
  | rowNotFound
  | queryFailure
deriving DecidableEq

/-- What one handler call does: return Ok(response), return Err, or
panic. The panic outcomes model the expect on the event path and the
panic on a missing last segment in main.rs. -/
inductive HandlerResult
  | ok (r : ApiGatewayProxyResponse)
  | error (e : HandlerError)
  | panicked (msg : String)
deriving DecidableEq

/-- True exactly on the panic outcome. -/
def HandlerResult.isPanicked : HandlerResult → Bool
  | .panicked _ => true
  | _ => false

/-- Model of the lambda handler in main.rs. The database is abstracted
as the function db from slug to optional row (the WHERE slug = ? query);
the connection pool and the serde_json serialization (infallible on
these values) are resolved away. -/
def handler (path : Option String) (db : String → Option PokemonHp) : HandlerResult :=
  match path with
  | none => .panicked "expect there to always be an event path"
  | some p =>
    match (splitChar '/' p.data).getLast? with
    | some [] => .ok ⟨400, some (.text emptyPokemonErrorBody), false⟩
    | none => .panicked "requested_pokemon is None, which should never happen"
    | some cs =>
      match db (String.mk cs) with
      | none => .error .rowNotFound
      | some row => .ok ⟨200, some (.text row.toJson), false⟩


/-- A sample raw record for instantiating theorems at a concrete input. -/
def sampleCsv : PokemonCsv :=
  { name := "Ho Oh"
    pokedex_id := 250
    abilities := ["Pressure"]
    typing := ["Fire", "Flying"]
    hp := 106
    attack := 130
    defense := 90
    special_attack := 110
    special_defense := 154
    speed := 90
    height := 38
    weight := 1990
    generation := 2
    female_rate := none
    genderless := false
    is_legendary_or_mythical := true
    is_default := true
    forms_switchable := false
    base_experience := 0
    capture_rate := 3
    egg_groups := []
    base_happiness := 0
    evolves_from := none
    primary_color := "Red"
    number_pokemon_with_typing := ⟨0⟩
    normal_attack_effectiveness := ⟨0⟩
    fire_attack_effectiveness := ⟨0⟩
    water_attack_effectiveness := ⟨0⟩
    electric_attack_effectiveness := ⟨0⟩
    grass_attack_effectiveness := ⟨0⟩
    ice_attack_effectiveness := ⟨0⟩
    fighting_attack_effectiveness := ⟨0⟩
    poison_attack_effectiveness := ⟨0⟩
    ground_attack_effectiveness := ⟨0⟩
    fly_attack_effectiveness := ⟨0⟩
    psychic_attack_effectiveness := ⟨0⟩
    bug_attack_effectiveness := ⟨0⟩
    rock_attack_effectiveness := ⟨0⟩
    ghost_attack_effectiveness := ⟨0⟩
    dragon_attack_effectiveness := ⟨0⟩
    dark_attack_effectiveness := ⟨0⟩
    steel_attack_effectiveness := ⟨0⟩
    fairy_attack_effectiveness := ⟨0⟩ }

/-- A sample identifier for instantiating theorems at a concrete input. -/
def sampleId : PokemonId := ⟨⟨0, 0⟩⟩

theorem toDigitsBE_length (b : Nat) : ∀ w n, (toDigitsBE b w n).length = w
  | 0, _ => rfl
  | w + 1, n => by simp [toDigitsBE, toDigitsBE_length b w]

theorem foldl_toDigitsBE (b : Nat) (hb : 0 < b) :
    ∀ w n a : Nat, n < b ^ w →
      List.foldl (fun acc d => acc * b + d) a (toDigitsBE b w n) = a * b ^ w + n := by
  intro w
  induction w with
  | zero =>
    intro n a h
    simp only [Nat.pow_zero] at h
    simp only [toDigitsBE, List.foldl_nil, Nat.pow_zero]
    omega
  | succ w ih =>
    intro n a h
    have hpow : 0 < b ^ w := Nat.pow_pos hb
    have hmod : n % b ^ w < b ^ w := Nat.mod_lt _ hpow
    have hdm := Nat.div_add_mod n (b ^ w)
    simp only [toDigitsBE, List.foldl_cons]
    rw [ih (n % b ^ w) (a * b + n / b ^ w) hmod]
    calc (a * b + n / b ^ w) * b ^ w + n % b ^ w
        = a * (b ^ w * b) + (b ^ w * (n / b ^ w) + n % b ^ w) := by ring
      _ = a * b ^ (w + 1) + n := by rw [hdm, Nat.pow_succ]

theorem fromDigits_toDigitsBE (b : Nat) (hb : 0 < b) (w n : Nat) (h : n < b ^ w) :
    fromDigits b (toDigitsBE b w n) = n := by
  unfold fromDigits
  rw [foldl_toDigitsBE b hb w n 0 h]
  omega

theorem toDigitsBE_digit_lt (b : Nat) (hb : 0 < b) :
    ∀ w n, n < b ^ w → ∀ d ∈ toDigitsBE b w n, d < b := by
  intro w
  induction w with
  | zero => intro n h d hd; simp [toDigitsBE] at hd
  | succ w ih =>
    intro n h d hd
    have hpow : 0 < b ^ w := Nat.pow_pos hb
    simp only [toDigitsBE, List.mem_cons] at hd
    rcases hd with rfl | hd
    · refine (Nat.div_lt_iff_lt_mul hpow).2 ?_
      rw [Nat.mul_comm, ← Nat.pow_succ]
      exact h
    · exact ih (n % b ^ w) (Nat.mod_lt _ hpow) d hd

theorem two_pow_160_lt_62_pow_27 : (2 : Nat) ^ 160 < 62 ^ 27 := by norm_num

theorem indexOf_digitChar : ∀ i : Fin 62, base62Alphabet.indexOf (digitChar i.val) = i.val := by
  decide

theorem digitChar_strictMono :
    ∀ i j : Fin 62, i.val < j.val → digitChar i.val < digitChar j.val := by
  decide

theorem digitChar_ascii : ∀ i : Fin 62, (digitChar i.val).toNat < 128 := by decide

theorem charsToDigits_map_digitChar :
    ∀ ds : List Nat, (∀ d ∈ ds, d < 62) → charsToDigits (ds.map digitChar) = some ds := by
  intro ds
  induction ds with
  | nil => intro _; rfl
  | cons d ds ih =>
    intro h
    have hd : d < 62 := h d (List.mem_cons_self d ds)
    have hrest : ∀ x ∈ ds, x < 62 := fun x hx => h x (List.mem_cons_of_mem d hx)
    simp only [List.map_cons, charsToDigits, indexOf_digitChar ⟨d, hd⟩, if_pos hd, ih hrest]
    rfl

theorem Ksuid.value_lt (k : Ksuid) (hts : k.timestamp < 2 ^ 32) (hp : k.payload < 2 ^ 128) :
    k.value < 2 ^ 160 := by
  unfold Ksuid.value
  calc k.timestamp * 2 ^ 128 + k.payload
      < k.timestamp * 2 ^ 128 + 2 ^ 128 := Nat.add_lt_add_left hp _
    _ = (k.timestamp + 1) * 2 ^ 128 := by ring
    _ ≤ 2 ^ 32 * 2 ^ 128 := Nat.mul_le_mul_right _ hts
    _ = 2 ^ 160 := by norm_num

theorem toBase62_digit_lt (k : Ksuid) (h : k.value < 62 ^ 27) :
    ∀ d ∈ toDigitsBE 62 27 k.value, d < 62 :=
  toDigitsBE_digit_lt 62 (by norm_num) 27 k.value h

theorem fromBase62_toBase62 (k : Ksuid) (hts : k.timestamp < 2 ^ 32)
    (hp : k.payload < 2 ^ 128) : Ksuid.fromBase62 k.toBase62 = .ok k := by
  have hv : k.value < 2 ^ 160 := k.value_lt hts hp
  have h62 : k.value < 62 ^ 27 := lt_trans hv two_pow_160_lt_62_pow_27
  have hdig := toBase62_digit_lt k h62
  have hdata : (Ksuid.toBase62 k).data = (toDigitsBE 62 27 k.value).map digitChar := rfl
  have hlen : ((toDigitsBE 62 27 k.value).map digitChar).length = 27 := by
    rw [List.length_map, toDigitsBE_length]
  have hdiv : k.value / 2 ^ 128 = k.timestamp := by
    unfold Ksuid.value
    rw [Nat.mul_comm, Nat.mul_add_div (by norm_num), Nat.div_eq_of_lt hp, Nat.add_zero]
  have hmod : k.value % 2 ^ 128 = k.payload := by
    unfold Ksuid.value
    rw [Nat.mul_comm, Nat.mul_add_mod, Nat.mod_eq_of_lt hp]
  unfold Ksuid.fromBase62
  rw [hdata, if_pos hlen, charsToDigits_map_digitChar _ hdig]
  simp only [fromDigits_toDigitsBE 62 (by norm_num) 27 k.value h62, if_pos hv, hdiv, hmod]

theorem toBase62_data_ascii (k : Ksuid) (h : k.value < 62 ^ 27) :
    ∀ c ∈ (Ksuid.toBase62 k).data, c.toNat < 128 := by
  intro c hc
  have hdata : (Ksuid.toBase62 k).data = (toDigitsBE 62 27 k.value).map digitChar := rfl
  rw [hdata, List.mem_map] at hc
  obtain ⟨d, hd, rfl⟩ := hc
  exact digitChar_ascii ⟨d, toBase62_digit_lt k h d hd⟩

theorem asciiDecode_asciiBytes (s : String) (h : ∀ c ∈ s.data, c.toNat < 128) :
    asciiDecode (asciiBytes s) = some s := by
  unfold asciiDecode asciiBytes
  have hall : (s.data.map Char.toNat).all (fun b => decide (b < 128)) = true := by
    rw [List.all_eq_true]
    intro x hx
    rw [List.mem_map] at hx
    obtain ⟨c, hc, rfl⟩ := hx
    exact decide_eq_true (h c hc)
  rw [if_pos hall, List.map_map]
  have hmap : s.data.map (Char.ofNat ∘ Char.toNat) = s.data := by
    simp [Function.comp_def]
  rw [hmap]

theorem decode_encodeByRef (id : PokemonId) (hts : id.ksuid.timestamp < 2 ^ 32)
    (hp : id.ksuid.payload < 2 ^ 128) :
    PokemonId.decode (PokemonId.encodeByRef id) = .ok id := by
  have h62 : id.ksuid.value < 62 ^ 27 :=
    lt_trans (id.ksuid.value_lt hts hp) two_pow_160_lt_62_pow_27
  unfold PokemonId.decode PokemonId.encodeByRef
  rw [asciiDecode_asciiBytes _ (toBase62_data_ascii id.ksuid h62)]
  simp only [fromBase62_toBase62 id.ksuid hts hp]

theorem toDigitsBE_map_lt :
    ∀ w n1 n2 : Nat, n1 < 62 ^ w → n2 < 62 ^ w → n1 < n2 →
      List.Lex (· < ·) ((toDigitsBE 62 w n1).map digitChar)
        ((toDigitsBE 62 w n2).map digitChar) := by
  intro w
  induction w with
  | zero =>
    intro n1 n2 h1 h2 hlt
    simp only [Nat.pow_zero] at h1 h2
    omega
  | succ w ih =>
    intro n1 n2 h1 n2h hlt
    have hpow : 0 < (62 : Nat) ^ w := Nat.pow_pos (by norm_num)
    have hq1 : n1 / 62 ^ w < 62 := by
      refine (Nat.div_lt_iff_lt_mul hpow).2 ?_
      rw [Nat.mul_comm, ← Nat.pow_succ]; exact h1
    have hq2 : n2 / 62 ^ w < 62 := by
      refine (Nat.div_lt_iff_lt_mul hpow).2 ?_
      rw [Nat.mul_comm, ← Nat.pow_succ]; exact n2h
    simp only [toDigitsBE, List.map_cons]
    rcases Nat.lt_or_ge (n1 / 62 ^ w) (n2 / 62 ^ w) with hq | hq
    · exact List.Lex.rel (digitChar_strictMono ⟨_, hq1⟩ ⟨_, hq2⟩ hq)
    · have hqeq : n1 / 62 ^ w = n2 / 62 ^ w :=
        Nat.le_antisymm (Nat.div_le_div_right (Nat.le_of_lt hlt)) hq
      have d1 := Nat.div_add_mod n1 (62 ^ w)
      have d2 := Nat.div_add_mod n2 (62 ^ w)
      rw [hqeq] at d1
      have hr : n1 % 62 ^ w < n2 % 62 ^ w := by omega
      rw [hqeq]
      exact List.Lex.cons
        (ih (n1 % 62 ^ w) (n2 % 62 ^ w) (Nat.mod_lt _ hpow) (Nat.mod_lt _ hpow) hr)

theorem splitChar_ne_nil (sep : Char) : ∀ cs, splitChar sep cs ≠ [] := by
  intro cs
  cases cs with
  | nil => simp [splitChar]
  | cons c cs =>
    unfold splitChar
    by_cases h : c = sep
    · simp [h]
    · simp only [h, if_neg, ite_false]
      cases hs : splitChar sep cs <;> simp

theorem getLast?_splitChar (sep : Char) (cs : List Char) :
    (splitChar sep cs).getLast? ≠ none := by
  rw [ne_eq, List.getLast?_eq_none_iff]
  exact splitChar_ne_nil sep cs

theorem handler_some (p : String) (db : String → Option PokemonHp) :
    handler (some p) db =
      match (splitChar '/' p.data).getLast? with
      | some [] => .ok ⟨400, some (.text emptyPokemonErrorBody), false⟩
      | none => .panicked "requested_pokemon is None, which should never happen"
      | some cs =>
        match db (String.mk cs) with
        | none => .error .rowNotFound
        | some row => .ok ⟨200, some (.text row.toJson), false⟩ := rfl

/-- C1: the claim as stated is false at a concrete identifier: the value
written by the storage encode is not the raw 20-byte sequence of the
identifier, and its width is 27, not 20. -/
theorem C1_counterexample :
    PokemonId.encodeByRef ⟨⟨0, 0⟩⟩ ≠ Ksuid.toBytes ⟨0, 0⟩ ∧
      (PokemonId.encodeByRef ⟨⟨0, 0⟩⟩).length = 27 ∧
      ¬ (PokemonId.encodeByRef ⟨⟨0, 0⟩⟩).length = 20 := by decide

/-- C1 (amended): the storage adapter writes the UTF-8 bytes of the
canonical base62 TEXT of the identifier into the column, a fixed width
of 27 bytes (the base62 text length), not the raw 20-byte sequence. -/
theorem C1_storage_writes_base62_text (id : PokemonId) :
    PokemonId.encodeByRef id = asciiBytes id.ksuid.toBase62 ∧
      (PokemonId.encodeByRef id).length = 27 := by
  refine ⟨rfl, ?_⟩
  show (((toDigitsBE 62 27 id.ksuid.value).map digitChar).map Char.toNat).length = 27
  rw [List.length_map, List.length_map, toDigitsBE_length]

/-- C2: for every identifier producible by generate (32-bit timestamp,
128-bit payload), the storage decode inverts the storage encode, and
decoding the canonical base62 text yields the identical identifier. -/
theorem C2_storage_and_text_roundtrip (ts p : Nat) (hts : ts < 2 ^ 32) (hp : p < 2 ^ 128) :
    PokemonId.decode (PokemonId.encodeByRef ⟨⟨ts, p⟩⟩) = .ok ⟨⟨ts, p⟩⟩ ∧
      Ksuid.fromBase62 (Ksuid.toBase62 ⟨ts, p⟩) = .ok ⟨ts, p⟩ :=
  ⟨decode_encodeByRef ⟨⟨ts, p⟩⟩ hts hp, fromBase62_toBase62 ⟨ts, p⟩ hts hp⟩

theorem C2_storage_and_text_roundtrip_witness :
    3 < 2 ^ 32 ∧ 7 < 2 ^ 128 ∧
      (PokemonId.decode (PokemonId.encodeByRef ⟨⟨3, 7⟩⟩) = .ok ⟨⟨3, 7⟩⟩ ∧
        Ksuid.fromBase62 (Ksuid.toBase62 ⟨3, 7⟩) = .ok ⟨3, 7⟩) :=
  ⟨by norm_num, by norm_num, C2_storage_and_text_roundtrip 3 7 (by norm_num) (by norm_num)⟩

/-- C3: an incoming loosely-typed numeric field is narrowed to the
16-bit storage width; 70000 fails with a CoercionError, 65535 succeeds,
an in-range value is passed through unchanged (never truncated), and
the db.rs transform itself preserves every already-narrowed stat value
on its way into the row. -/
theorem C3_numeric_coercion (n : Nat) :
    coerceToU16 70000 = .error .outOfRange ∧
      coerceToU16 65535 = .ok 65535 ∧
      (n < 2 ^ 16 → coerceToU16 n = .ok n) ∧
      (2 ^ 16 ≤ n → coerceToU16 n = .error .outOfRange) ∧
      ∀ (csv : PokemonCsv) (id : PokemonId),
        (PokemonTableRow.ofCsv csv id).hp = csv.hp ∧
          (PokemonTableRow.ofCsv csv id).attack = csv.attack ∧
          (PokemonTableRow.ofCsv csv id).generation = csv.generation ∧
          (PokemonTableRow.ofCsv csv id).base_experience = csv.base_experience := by
  refine ⟨by decide, by decide, ?_, ?_, fun csv id => ⟨rfl, rfl, rfl, rfl⟩⟩
  · intro h
    unfold coerceToU16
    rw [if_pos h]
  · intro h
    unfold coerceToU16
    rw [if_neg (by omega)]

theorem C3_numeric_coercion_witness :
    44 < 2 ^ 16 ∧ coerceToU16 44 = .ok 44 :=
  ⟨by norm_num, (C3_numeric_coercion 44).2.2.1 (by norm_num)⟩

/-- C4: the claim as stated is false at a concrete input: looking up a
slug absent from the store yields an error result (the propagated
RowNotFound failure of fetch_one), not an empty-option success. -/
theorem C4_counterexample :
    handler (some "/api/pokemon/missing") (fun _ => none) = .error .rowNotFound := by decide

/-- C4 (amended): the read path has no option-returning lookup; it calls
fetch_one, so every slug absent from the store produces the RowNotFound
error, which the handler propagates as an error result. Not-found IS
reported as an error, indistinguishable in kind from a query failure. -/
theorem C4_not_found_is_error (p : String) (db : String → Option PokemonHp) (c : Char)
    (cs : List Char) (hseg : (splitChar '/' p.data).getLast? = some (c :: cs))
    (habs : db (String.mk (c :: cs)) = none) :
    handler (some p) db = .error .rowNotFound := by
  rw [handler_some, hseg]
  simp [habs]

theorem C4_not_found_is_error_witness :
    (splitChar '/' "/api/pokemon/mew".data).getLast? = some ('m' :: "ew".data) ∧
      handler (some "/api/pokemon/mew") (fun _ => none) = .error .rowNotFound :=
  ⟨by decide, C4_not_found_is_error "/api/pokemon/mew" (fun _ => none) 'm' "ew".data
    (by decide) rfl⟩

/-- C5: for every path string handed to the handler and every database
state, the handler never reaches a panic outcome, and decoding
identifier text can only produce a success or one of the two typed
decode errors. -/
theorem C5_no_panic_typed_results (p : String) (db : String → Option PokemonHp) :
    (handler (some p) db).isPanicked = false ∧
      ∀ s, Ksuid.fromBase62 s = .error .invalidLength ∨
        Ksuid.fromBase62 s = .error .invalidAlphabet ∨
        ∃ k, Ksuid.fromBase62 s = .ok k := by
  constructor
  · rcases hl : (splitChar '/' p.data).getLast? with _ | seg
    · exact absurd hl (getLast?_splitChar '/' p.data)
    · cases seg with
      | nil =>
        rw [handler_some, hl]
        rfl
      | cons c cs =>
        rw [handler_some, hl]
        cases hdb : db (String.mk (c :: cs)) <;> simp [hdb, HandlerResult.isPanicked]
  · intro s
    unfold Ksuid.fromBase62
    by_cases hlen : s.data.length = 27
    · rw [if_pos hlen]
      cases hcd : charsToDigits s.data with
      | none => right; left; rfl
      | some ds =>
        by_cases hv : fromDigits 62 ds < 2 ^ 160
        · right; right
          refine ⟨⟨fromDigits 62 ds / 2 ^ 128, fromDigits 62 ds % 2 ^ 128⟩, ?_⟩
          show (if fromDigits 62 ds < 2 ^ 160 then
              Except.ok (⟨fromDigits 62 ds / 2 ^ 128, fromDigits 62 ds % 2 ^ 128⟩ : Ksuid)
            else Except.error DecodeError.invalidLength) = _
          rw [if_pos hv]
        · left
          show (if fromDigits 62 ds < 2 ^ 160 then
              Except.ok (⟨fromDigits 62 ds / 2 ^ 128, fromDigits 62 ds % 2 ^ 128⟩ : Ksuid)
            else Except.error DecodeError.invalidLength) = _
          rw [if_neg hv]
    · left; rw [if_neg hlen]

/-- C6: the slug computed by the transform is the kebab-case form of the
display name and nothing else, so equal names yield equal slugs, and
"Ho Oh" maps to "ho-oh". -/
theorem C6_slug_pure_function (csv csv2 : PokemonCsv) (id id2 : PokemonId)
    (h : csv.name = csv2.name) :
    (PokemonTableRow.ofCsv csv id).slug = toKebabCase csv.name ∧
      (PokemonTableRow.ofCsv csv id).slug = (PokemonTableRow.ofCsv csv2 id2).slug ∧
      toKebabCase "Ho Oh" = "ho-oh" := by
  refine ⟨rfl, ?_, by decide⟩
  show toKebabCase csv.name = toKebabCase csv2.name
  rw [h]

theorem C6_slug_pure_function_witness :
    sampleCsv.name = sampleCsv.name ∧ toKebabCase "Ho Oh" = "ho-oh" :=
  ⟨rfl, (C6_slug_pure_function sampleCsv sampleCsv sampleId sampleId rfl).2.2⟩

/-- C7: of two identifiers with different 32-bit timestamps, the one
with the earlier timestamp has the lexicographically smaller canonical
base62 text. -/
theorem C7_lex_order_matches_time_order (ts1 p1 ts2 p2 : Nat) (h1 : ts1 < 2 ^ 32)
    (h2 : ts2 < 2 ^ 32) (hp1 : p1 < 2 ^ 128) (hp2 : p2 < 2 ^ 128) (hlt : ts1 < ts2) :
    Ksuid.toBase62 ⟨ts1, p1⟩ < Ksuid.toBase62 ⟨ts2, p2⟩ := by
  have hv : Ksuid.value ⟨ts1, p1⟩ < Ksuid.value ⟨ts2, p2⟩ := by
    show ts1 * 2 ^ 128 + p1 < ts2 * 2 ^ 128 + p2
    calc ts1 * 2 ^ 128 + p1
        < ts1 * 2 ^ 128 + 2 ^ 128 := Nat.add_lt_add_left hp1 _
      _ = (ts1 + 1) * 2 ^ 128 := by ring
      _ ≤ ts2 * 2 ^ 128 := Nat.mul_le_mul_right _ hlt
      _ ≤ ts2 * 2 ^ 128 + p2 := Nat.le_add_right _ _
  have hb1 : Ksuid.value ⟨ts1, p1⟩ < 62 ^ 27 :=
    lt_trans (Ksuid.value_lt ⟨ts1, p1⟩ h1 hp1) two_pow_160_lt_62_pow_27
  have hb2 : Ksuid.value ⟨ts2, p2⟩ < 62 ^ 27 :=
    lt_trans (Ksuid.value_lt ⟨ts2, p2⟩ h2 hp2) two_pow_160_lt_62_pow_27
  rw [String.lt_iff_toList_lt]
  show List.Lex (· < ·) ((toDigitsBE 62 27 (Ksuid.value ⟨ts1, p1⟩)).map digitChar)
      ((toDigitsBE 62 27 (Ksuid.value ⟨ts2, p2⟩)).map digitChar)
  exact toDigitsBE_map_lt 27 _ _ hb1 hb2 hv

theorem C7_lex_order_matches_time_order_witness :
    Ksuid.toBase62 ⟨0, 5⟩ < Ksuid.toBase62 ⟨1, 3⟩ :=
  C7_lex_order_matches_time_order 0 5 1 3 (by norm_num) (by norm_num) (by norm_num)
    (by norm_num) (by norm_num)

/-- C8: two raw records that differ only in the fields dropped at
ingestion (abilities, typing, egg_groups, evolves_from) transform to
rows that agree on every field except the freshly assigned identifier,
which is exactly the identifier each call was given. -/
theorem C8_dropped_fields_no_influence (csv : PokemonCsv) (a t g : List String)
    (e : Option String) (id1 id2 : PokemonId) :
    (PokemonTableRow.ofCsv
        { csv with abilities := a, typing := t, egg_groups := g, evolves_from := e } id1).stripId
        = (PokemonTableRow.ofCsv csv id2).stripId ∧
      (PokemonTableRow.ofCsv
        { csv with abilities := a, typing := t, egg_groups := g, evolves_from := e } id1).id = id1 ∧
      (PokemonTableRow.ofCsv csv id2).id = id2 :=
  ⟨rfl, rfl, rfl⟩

/-- C9: a request whose last path segment is empty is answered with the
400 error response carrying the error body, and the result does not
depend on the database at all: no lookup is consulted. -/
theorem C9_empty_slug_rejected (p : String) (db db2 : String → Option PokemonHp)
    (h : (splitChar '/' p.data).getLast? = some []) :
    handler (some p) db = .ok ⟨400, some (.text emptyPokemonErrorBody), false⟩ ∧
      handler (some p) db = handler (some p) db2 := by
  have hh : ∀ d : String → Option PokemonHp,
      handler (some p) d = .ok ⟨400, some (.text emptyPokemonErrorBody), false⟩ := by
    intro d
    rw [handler_some, h]
  exact ⟨hh db, (hh db).trans (hh db2).symm⟩

theorem C9_empty_slug_rejected_witness :
    (splitChar '/' "/api/pokemon//".data).getLast? = some [] ∧
      (handler (some "/api/pokemon//") (fun _ => none)
          = .ok ⟨400, some (.text emptyPokemonErrorBody), false⟩ ∧
        handler (some "/api/pokemon//") (fun _ => none)
          = handler (some "/api/pokemon//") (fun _ => some ⟨⟨⟨0, 0⟩⟩, "Mew", 100, false⟩)) :=
  ⟨by decide, C9_empty_slug_rejected "/api/pokemon//" (fun _ => none)
    (fun _ => some ⟨⟨⟨0, 0⟩⟩, "Mew", 100, false⟩) (by decide)⟩

/-- C10: splitting any path on the separator always yields a last
segment, either the empty one or a named one, so the missing-segment
panic arm of the handler is unreachable. -/
theorem C10_split_always_yields_segment (cs : List Char) :
    (splitChar '/' cs).getLast? = some [] ∨
      ∃ c cs2, (splitChar '/' cs).getLast? = some (c :: cs2) := by
  rcases hl : (splitChar '/' cs).getLast? with _ | seg
  · exact absurd hl (getLast?_splitChar '/' cs)
  · cases seg with
    | nil => exact Or.inl rfl
    | cons c cs2 => exact Or.inr ⟨c, cs2, rfl⟩
